import Mathlib

/-!
Verification model of the mongo-collection-archiver orchestration core
(`internal/archive/archiver.go`), together with the per-day document
source contract (`internal/source/mongodb.go`) and the path-addressed
store contract (`internal/storage`).

Timestamps are modelled as natural numbers of seconds since the Unix
epoch in UTC.  Go's `time.Time.Truncate(24h)` rounds down to a multiple
of 24 hours measured from the zero time (year 1, a UTC midnight whose
offset to the epoch is a multiple of 86400 seconds), so for the times
handled by the archiver it is exactly flooring to a multiple of 86400
seconds; `AddDate(0, 0, 1)` on a UTC midnight adds exactly 86400
seconds.  Records are opaque byte strings (`List Nat`).  The gzip layer
is lossless, so an archive file is modelled by its decompressed payload.
External collaborators (document source and store) are modelled by a
state record plus a fault-injection environment: every error return
present in the Go interfaces is a point where the environment may
supply an error value.
-/

abbrev Bytes := List Nat

/-- Go error values as the archiver builds them: atomic errors
(`errors.New`), wrapped errors (`fmt.Errorf` with `%w`) and joined
errors (`errors.Join` of two non-nil errors). -/
inductive GoErr where
  | mk (msg : String)
  | wrap (msg : String) (inner : GoErr)
  | join (a b : GoErr)
deriving DecidableEq, Repr

/-- The individual failures held inside a (possibly joined) error:
`errors.Join` trees are flattened, every other node is kept whole. -/
def GoErr.leaves : GoErr → List GoErr
  | .join a b => a.leaves ++ b.leaves
  | .mk m => [.mk m]
  | .wrap m e => [.wrap m e]

/-- `errors.Join(err, e)` where `err` may be nil and `e` is not. -/
def joinErr : Option GoErr → GoErr → Option GoErr
  | none, e => some e
  | some a, e => some (.join a e)

/-- The leaves of a possibly-nil error. -/
def errorLeaves : Option GoErr → List GoErr
  | none => []
  | some e => e.leaves

/-- A deferred `Close` whose error is wrapped with `msg` and joined
onto the primary error, exactly as the two `defer` blocks of
`archiveDocuments` do (`errors.Join(err, fmt.Errorf(msg, cErr))`). -/
def joinClose (msg : String) (primary : Option GoErr) (closeErr : Option GoErr) : Option GoErr :=
  match closeErr with
  | some e => joinErr primary (.wrap msg e)
  | none => primary

/-- Observable side effects of a run, in the order they are performed:
store existence checks, store file creations, per-record writes into
the day's file, the two `Close` calls, and per-day source deletions. -/
inductive Event where
  | existsCheck (path : String)
  | createFile (path : String)
  | writeRecord (path : String) (idx : Nat)
  | closeGzip (path : String)
  | closeFile (path : String)
  | deleteDay (date : Nat)
deriving DecidableEq, Repr

def Event.isExistsCheck : Event → Bool
  | .existsCheck _ => true
  | _ => false

/-- The archiver's configuration (`skipDelete` and
`ignoreFileExistsError` as set up by `NewArchiver`; the pacing delay
has no observable effect in this model). -/
structure Config where
  skipDelete : Bool
  ignoreFileExistsError : Bool
deriving DecidableEq, Repr

/-- Mutable state of the two collaborators: the store's files (path to
decompressed payload) and the document source's records, keyed by day
start (seconds), in extraction order. -/
structure Sys where
  store : String → Option Bytes
  src : Nat → List Bytes

/-- Environment of one run: the source's earliest-timestamp answer and
a fault-injection point for every error return of the collaborators,
keyed by the day being processed, plus the cancellation signal as
observed by the `select` at the end of each day's iteration. -/
structure Env where
  earliest : Except GoErr Nat
  existsErr : Nat → Option GoErr
  createErr : Nat → Option GoErr
  gzipErr : Nat → Option GoErr
  copyErr : Nat → Option (Nat × GoErr)
  findErr : Nat → Option GoErr
  closeGzipErr : Nat → Option GoErr
  closeFileErr : Nat → Option GoErr
  deleteErr : Nat → Option GoErr
  cancelled : Nat → Bool

/-- `time.Time.Truncate(24 * time.Hour)` on a UTC timestamp: floor to a
multiple of 86400 seconds. -/
def truncDay (t : Nat) : Nat := t / 86400 * 86400

/-- Civil date (year, month, day) of a day count since 1970-01-01,
proleptic Gregorian (Howard Hinnant's `civil_from_days`). -/
def civilFromDays (z : Nat) : Nat × Nat × Nat :=
  let z' := z + 719468
  let era := z' / 146097
  let doe := z' % 146097
  let yoe := (doe - doe / 1460 + doe / 36524 - doe / 146096) / 365
  let y := yoe + era * 400
  let doy := doe - (365 * yoe + yoe / 4 - yoe / 100)
  let mp := (5 * doy + 2) / 153
  let d := doy - (153 * mp + 2) / 5 + 1
  let m := if mp < 10 then mp + 3 else mp - 9
  (if m ≤ 2 then y + 1 else y, m, d)

/-- Zero-pad a decimal numeral to `w` digits, as Go's `2006`, `01` and
`02` layout elements do. -/
def padNum (w n : Nat) : String :=
  let s := Nat.repr n
  String.mk (List.replicate (w - s.length) '0') ++ s

/-- `path.Join(date.Format("2006"), date.Format("01"), date.Format("02") + ".json.gz")`. -/
def fileNameFor (date : Nat) : String :=
  let c := civilFromDays (date / 86400)
  padNum 4 c.1 ++ "/" ++ padNum 2 c.2.1 ++ "/" ++ padNum 2 c.2.2 ++ ".json.gz"

/-- The records actually transferred through the gzip writer for a day:
all of them, unless a stream fault is injected at an index that is in
range, in which case the copy loop stops there. -/
def writtenDocs (env : Env) (date : Nat) (docs : List Bytes) : List Bytes :=
  match env.copyErr date with
  | some kv => if kv.1 < docs.length then docs.take kv.1 else docs
  | none => docs

/-- The error with which `io.Copy` fails inside the record loop, when
the injected stream fault is in range. -/
def copyFault (env : Env) (date : Nat) (docs : List Bytes) : Option GoErr :=
  match env.copyErr date with
  | some kv => if kv.1 < docs.length then some kv.2 else none
  | none => none

/-- Newline-delimited encoding written into the gzip stream: each
record's bytes followed by one `'\n'` byte. -/
def encodeDocs (docs : List Bytes) : Bytes :=
  (docs.map (fun r => r ++ [10])).flatten

def firstErr (a b : Option GoErr) : Option GoErr :=
  match a with
  | some e => some e
  | none => b

/-- The part of `archiveDocuments` after `store.Create` has succeeded
at path `p`: gzip-writer setup, the record copy loop, the terminal
`res.Err()` check, and the two deferred closes (gzip writer first,
then the file writer), with close errors joined onto the primary
error.  If the gzip setup itself fails, only the file-close defer is
registered.  The created file exists from this point on whatever
happens later. -/
def writePhase (env : Env) (sys : Sys) (date : Nat) (p : String) :
    Option GoErr × Sys × List Event :=
  match env.gzipErr date with
  | some e =>
      (joinClose "failed to close file" (some e) (env.closeFileErr date),
       { sys with store := fun q => if q = p then some [] else sys.store q },
       [.closeFile p])
  | none =>
      let docs := sys.src (truncDay date)
      let written := writtenDocs env date docs
      let primary := firstErr (copyFault env date docs) (env.findErr date)
      let err :=
        joinClose "failed to close file"
          (joinClose "failed to close gzip writer" primary (env.closeGzipErr date))
          (env.closeFileErr date)
      (err,
       { sys with store := fun q => if q = p then some (encodeDocs written) else sys.store q },
       (List.range written.length).map (Event.writeRecord p) ++ [.closeGzip p, .closeFile p])

/-- `Archiver.archiveDocuments`: derive the day's path, check for an
existing file (conflict unless the ignore policy is set), create the
file and stream the day's records through gzip into it. -/
def archiveDocuments (cfg : Config) (env : Env) (sys : Sys) (date : Nat) :
    Option GoErr × Sys × List Event :=
  let p := fileNameFor date
  match env.existsErr date with
  | some e => (some (.wrap "failed to check if file exists" e), sys, [.existsCheck p])
  | none =>
    if (sys.store p).isSome then
      if cfg.ignoreFileExistsError then ((none : Option GoErr), sys, [.existsCheck p])
      else (some (.mk "target file exists"), sys, [.existsCheck p])
    else
      match env.createErr date with
      | some e => (some e, sys, [.existsCheck p, .createFile p])
      | none =>
        let r := writePhase env sys date p
        (r.1, r.2.1, [.existsCheck p, .createFile p] ++ r.2.2)

/-- `Archiver.archiveDocumentsAndDelete`: archive the day, then (unless
`skipDelete` is set) delete the day's records from the source. -/
def archiveDocumentsAndDelete (cfg : Config) (env : Env) (sys : Sys) (date : Nat) :
    Option GoErr × Sys × List Event :=
  match archiveDocuments cfg env sys date with
  | (some e, sys', ev) => (some (.wrap "failed to archive documents" e), sys', ev)
  | (none, sys', ev) =>
    if cfg.skipDelete then (none, sys', ev)
    else
      match env.deleteErr date with
      | some e => (some (.wrap "failed to delete documents" e), sys', ev ++ [.deleteDay date])
      | none =>
        ((none : Option GoErr),
         { sys' with src := fun q => if q = truncDay date then [] else sys'.src q },
         ev ++ [.deleteDay date])

/-- A run's terminal outcome: normal completion reporting the number of
days archived, a failure, or cancellation (`ctx.Err()`). -/
inductive RunOutcome where
  | completed (total : Nat)
  | failed (e : GoErr)
  | cancelled
deriving DecidableEq, Repr

/-- The day loop of `Archiver.Run`: while `date < target`, archive and
delete the day, then poll cancellation before advancing one day.  The
fuel argument only bounds the recursion; `run` always supplies enough
for the loop to reach `target`. -/
def runLoop (cfg : Config) (env : Env) :
    Nat → Nat → Nat → Sys → Nat → RunOutcome × Sys × List Event
  | 0, _, _, sys, total => (.completed total, sys, [])
  | fuel + 1, date, target, sys, total =>
    if date < target then
      let r := archiveDocumentsAndDelete cfg env sys date
      match r.1 with
      | some e => (.failed (.wrap "archival failed" e), r.2.1, r.2.2)
      | none =>
        if env.cancelled date then (.cancelled, r.2.1, r.2.2)
        else
          let rest := runLoop cfg env fuel (date + 86400) target r.2.1 (total + 1)
          (rest.1, rest.2.1, r.2.2 ++ rest.2.2)
    else (.completed total, sys, [])

/-- `Archiver.Run`: resolve the earliest record timestamp (failing the
run if that errors), then iterate whole days from its truncation up to
the exclusive target. -/
def run (cfg : Config) (env : Env) (sys : Sys) (target : Nat) :
    RunOutcome × Sys × List Event :=
  match env.earliest with
  | .error e => (.failed (.wrap "failed to get earliest created at" e), sys, [])
  | .ok earliest =>
    let start := truncDay earliest
    runLoop cfg env ((target - start) / 86400 + 1) start target sys 0

/-- The sequence of days visited by the loop header
`for date := earliest.Truncate(24h); date.Before(target); date = date.AddDate(0,0,1)`,
bounded by a fuel that `daysToProcess` always makes sufficient. -/
def daysFromFuel : Nat → Nat → Nat → List Nat
  | 0, _, _ => []
  | fuel + 1, s, t => if s < t then s :: daysFromFuel fuel (s + 86400) t else []

/-- The Day Window Iterator: the days `Archiver.Run`'s loop visits for
a given earliest timestamp and exclusive target. -/
def daysToProcess (earliest target : Nat) : List Nat :=
  daysFromFuel ((target - truncDay earliest) / 86400 + 1) (truncDay earliest) target

/-- Split a byte string at `'\n'` bytes (keeping empty pieces),
as a line scanner over the decompressed archive does. -/
def splitNL : Bytes → List Bytes
  | [] => [[]]
  | b :: rest =>
    if b = 10 then [] :: splitNL rest
    else
      match splitNL rest with
      | [] => [[b]]
      | l :: ls => (b :: l) :: ls

/-- Decompress-and-decode of an archive payload: split on newlines and
drop the trailing empty piece left by the final newline (the behaviour
of a line scanner such as `bufio.Scanner`). -/
def gunzipLines (bs : Bytes) : List Bytes :=
  let parts := splitNL bs
  if parts.getLast? = some [] then parts.dropLast else parts

/-- No fault is injected at any collaborator error point. -/
def FaultFree (env : Env) : Prop :=
  ∀ d, env.existsErr d = none ∧ env.createErr d = none ∧ env.gzipErr d = none ∧
    env.copyErr d = none ∧ env.findErr d = none ∧ env.closeGzipErr d = none ∧
    env.closeFileErr d = none ∧ env.deleteErr d = none

/-- Cancellation is never signalled. -/
def NeverCancelled (env : Env) : Prop := ∀ d, env.cancelled d = false

/-- An environment with no injected faults and no cancellation. -/
def noFaultEnv (e : Except GoErr Nat) : Env where
  earliest := e
  existsErr := fun _ => none
  createErr := fun _ => none
  gzipErr := fun _ => none
  copyErr := fun _ => none
  findErr := fun _ => none
  closeGzipErr := fun _ => none
  closeFileErr := fun _ => none
  deleteErr := fun _ => none
  cancelled := fun _ => false

/-- Default policies: delete after archiving, fail on existing files. -/
def cfg0 : Config := { skipDelete := false, ignoreFileExistsError := false }

def day01 : Nat := 1730419200

def day02 : Nat := day01 + 86400

def day03 : Nat := day01 + 2 * 86400

def day04 : Nat := day01 + 3 * 86400

def rec01 : Bytes := [65, 49]

def rec02a : Bytes := [66, 50, 97]

def rec02b : Bytes := [66, 50, 98]

def rec03 : Bytes := [67, 51]

def rec04 : Bytes := [68, 52]

/-- Records of the C1 scenario: one on 11/01, two on 11/02, one each on
11/03 and 11/04 (days keyed by their UTC-midnight second count). -/
def docsC1 : Nat → List Bytes := fun d =>
  if d = day01 then [rec01]
  else if d = day02 then [rec02a, rec02b]
  else if d = day03 then [rec03]
  else if d = day04 then [rec04]
  else []

/-- Initial state of the C1 scenario: empty store, the four days of
records. -/
def sysC1 : Sys := { store := fun _ => none, src := docsC1 }

/-- Earliest record timestamp 2024-11-01T23:59:59Z. -/
def envC1 : Env := noFaultEnv (.ok (day01 + 86399))

def Event.isCreate : Event → Bool
  | .createFile _ => true
  | _ => false

def Event.isDelete : Event → Bool
  | .deleteDay _ => true
  | _ => false

def cfgSkip : Config := { skipDelete := true, ignoreFileExistsError := false }

def cfgIgn : Config := { skipDelete := false, ignoreFileExistsError := true }

/-- Store state of the C4/C5 scenario: the archive file for 11/01
already exists. -/
def sysPre : Sys :=
  { store := fun q => if q = "2024/11/01.json.gz" then some (encodeDocs [rec01]) else none,
    src := docsC1 }

/-- Fault-free environment whose cancellation fires once day 11/01 has
completed. -/
def envC7 : Env :=
  { noFaultEnv (.ok (day01 + 86399)) with cancelled := fun d => d == day01 }

/-- Environment of the C6 witness: the 11/01 cursor reports a terminal
error and both closes fail. -/
def envC6 : Env :=
  { noFaultEnv (.ok day01) with
    findErr := fun _ => some (.mk "cursor fault"),
    closeGzipErr := fun _ => some (.mk "gzip close fault"),
    closeFileErr := fun _ => some (.mk "file close fault") }

/-- Environment of the C10 witness: the stream transfer for the second
record of a day faults. -/
def envC10 : Env :=
  { noFaultEnv (.ok day01) with copyErr := fun _ => some (1, .mk "broken pipe") }

/-- State of the C3 counterexample: a single record consisting of one
newline byte. -/
def sysNL : Sys := { store := fun _ => none, src := fun _ => [[10]] }

def envNL : Env := noFaultEnv (.ok 0)

/-- Environment of the C2 counterexample: earliest timestamp 86402,
strictly after the cutoff 86401, with no records anywhere. -/
def envC2 : Env := noFaultEnv (.ok 86402)

def sysEmpty : Sys := { store := fun _ => none, src := fun _ => [] }

/-- Claim C1: with earliest record at 2024-11-01T23:59:59Z, records
11/01 (x1), 11/02 (x2), 11/03 (x1), 11/04 (x1) and cutoff
2024-11-03T00:00:00Z under default policies, the run succeeds reporting
2 days archived, writes exactly the archive files for 11/01 (1 record)
and 11/02 (2 records), deletes exactly those two days' records, and
leaves the 11/03 and 11/04 records and paths untouched. -/
theorem claim_c1_scenario :
    (run cfg0 envC1 sysC1 day03).1 = .completed 2
    ∧ (run cfg0 envC1 sysC1 day03).2.1.store "2024/11/01.json.gz" = some (encodeDocs [rec01])
    ∧ (run cfg0 envC1 sysC1 day03).2.1.store "2024/11/02.json.gz" = some (encodeDocs [rec02a, rec02b])
    ∧ (run cfg0 envC1 sysC1 day03).2.1.store "2024/11/03.json.gz" = none
    ∧ (run cfg0 envC1 sysC1 day03).2.1.store "2024/11/04.json.gz" = none
    ∧ (run cfg0 envC1 sysC1 day03).2.2.filter Event.isCreate
        = [.createFile "2024/11/01.json.gz", .createFile "2024/11/02.json.gz"]
    ∧ (run cfg0 envC1 sysC1 day03).2.1.src day01 = []
    ∧ (run cfg0 envC1 sysC1 day03).2.1.src day02 = []
    ∧ (run cfg0 envC1 sysC1 day03).2.1.src day03 = [rec03]
    ∧ (run cfg0 envC1 sysC1 day03).2.1.src day04 = [rec04]
    ∧ (run cfg0 envC1 sysC1 day03).2.2.filter Event.isDelete
        = [.deleteDay day01, .deleteDay day02] := by decide

/-- Claim C8: if resolving the earliest timestamp fails, the run fails
immediately with that error wrapped, and performs no collaborator
operation at all (empty event trace, state untouched). -/
theorem claim_c8_earliest_error (cfg : Config) (env : Env) (sys : Sys) (target : Nat)
    (e : GoErr) (h : env.earliest = .error e) :
    run cfg env sys target
      = (.failed (.wrap "failed to get earliest created at" e), sys, []) := by
  unfold run
  rw [h]

theorem claim_c8_earliest_error_witness :
    run cfg0 (noFaultEnv (.error (.mk "mongo: no documents in result"))) sysC1 day03
      = (.failed (.wrap "failed to get earliest created at"
          (.mk "mongo: no documents in result")), sysC1, []) :=
  claim_c8_earliest_error cfg0 _ sysC1 day03 _ rfl

theorem archiveDocuments_src_eq (cfg : Config) (env : Env) (sys : Sys) (date : Nat) :
    (archiveDocuments cfg env sys date).2.1.src = sys.src := by
  unfold archiveDocuments writePhase
  dsimp only []
  repeat' split
  all_goals rfl

theorem archiveDocuments_no_delete (cfg : Config) (env : Env) (sys : Sys) (date d : Nat) :
    Event.deleteDay d ∉ (archiveDocuments cfg env sys date).2.2 := by
  unfold archiveDocuments writePhase
  dsimp only []
  repeat' split
  all_goals simp

theorem archiveDocuments_store_mono (cfg : Config) (env : Env) (sys : Sys) (date : Nat)
    (p : String) (c : Bytes) (h : sys.store p = some c) :
    ∃ c', (archiveDocuments cfg env sys date).2.1.store p = some c' := by
  unfold archiveDocuments writePhase
  dsimp only []
  repeat' split
  all_goals try exact ⟨c, h⟩
  all_goals
    by_cases hpq : p = fileNameFor date
  all_goals simp [hpq, h]

theorem archiveDocumentsAndDelete_src_skip (cfg : Config) (env : Env) (sys : Sys)
    (date : Nat) (h : cfg.skipDelete = true) :
    (archiveDocumentsAndDelete cfg env sys date).2.1.src = sys.src := by
  have hsrc := archiveDocuments_src_eq cfg env sys date
  unfold archiveDocumentsAndDelete
  rcases had : archiveDocuments cfg env sys date with ⟨err, sys', ev⟩
  rw [had] at hsrc
  rcases err with _ | e
  · simpa [h] using hsrc
  · simpa using hsrc

theorem archiveDocumentsAndDelete_no_delete_skip (cfg : Config) (env : Env) (sys : Sys)
    (date d : Nat) (h : cfg.skipDelete = true) :
    Event.deleteDay d ∉ (archiveDocumentsAndDelete cfg env sys date).2.2 := by
  have hnd := archiveDocuments_no_delete cfg env sys date d
  unfold archiveDocumentsAndDelete
  rcases had : archiveDocuments cfg env sys date with ⟨err, sys', ev⟩
  rw [had] at hnd
  rcases err with _ | e
  · simpa [h] using hnd
  · simpa using hnd

theorem archiveDocumentsAndDelete_store_mono (cfg : Config) (env : Env) (sys : Sys)
    (date : Nat) (p : String) (c : Bytes) (h : sys.store p = some c) :
    ∃ c', (archiveDocumentsAndDelete cfg env sys date).2.1.store p = some c' := by
  obtain ⟨c', hc'⟩ := archiveDocuments_store_mono cfg env sys date p c h
  unfold archiveDocumentsAndDelete
  rcases had : archiveDocuments cfg env sys date with ⟨err, sys', ev⟩
  rw [had] at hc'
  rcases err with _ | e
  · by_cases hsk : cfg.skipDelete
    · exact ⟨c', by simpa [hsk] using hc'⟩
    · rcases hde : env.deleteErr date with _ | e2
      · exact ⟨c', by simpa [hsk, hde] using hc'⟩
      · exact ⟨c', by simpa [hsk, hde] using hc'⟩
  · exact ⟨c', by simpa using hc'⟩

theorem archiveDocumentsAndDelete_delete_eq (cfg : Config) (env : Env) (sys : Sys)
    (date d : Nat) (h : Event.deleteDay d ∈ (archiveDocumentsAndDelete cfg env sys date).2.2) :
    d = date := by
  have hnd := archiveDocuments_no_delete cfg env sys date d
  unfold archiveDocumentsAndDelete at h
  rcases had : archiveDocuments cfg env sys date with ⟨err, sys', ev⟩
  rw [had] at h hnd
  rcases err with _ | e
  · by_cases hsk : cfg.skipDelete
    · simp [hsk] at h
      exact absurd h hnd
    · rcases hde : env.deleteErr date with _ | e2 <;>
        · simp [hsk, hde] at h
          rcases h with h | h
          · exact absurd h hnd
          · exact h
  · simp at h
    exact absurd h hnd

theorem runLoop_skipDelete (cfg : Config) (env : Env) (h : cfg.skipDelete = true) :
    ∀ fuel date target sys total,
      (∀ d, Event.deleteDay d ∉ (runLoop cfg env fuel date target sys total).2.2)
      ∧ (runLoop cfg env fuel date target sys total).2.1.src = sys.src := by
  intro fuel
  induction fuel with
  | zero =>
    intro date target sys total
    exact ⟨fun d => by simp [runLoop], rfl⟩
  | succ n ih =>
    intro date target sys total
    by_cases hlt : date < target
    · rcases har : archiveDocumentsAndDelete cfg env sys date with ⟨err, sys', ev⟩
      have hsrc := archiveDocumentsAndDelete_src_skip cfg env sys date h
      have hnd := fun d => archiveDocumentsAndDelete_no_delete_skip cfg env sys date d h
      rw [har] at hsrc hnd
      simp only at hsrc hnd
      rcases err with _ | e
      · by_cases hcan : env.cancelled date
        · simp only [runLoop, if_pos hlt, har, hcan, if_pos]
          exact ⟨hnd, hsrc⟩
        · obtain ⟨ihnd, ihsrc⟩ := ih (date + 86400) target sys' (total + 1)
          simp only [runLoop, if_pos hlt, har, hcan, if_neg, Bool.false_eq_true,
            not_false_iff]
          constructor
          · intro d
            simp only [List.mem_append, not_or]
            exact ⟨hnd d, ihnd d⟩
          · rw [ihsrc, hsrc]
      · simp only [runLoop, if_pos hlt, har]
        exact ⟨hnd, hsrc⟩
    · constructor
      · intro d
        simp [runLoop, hlt]
      · simp [runLoop, hlt]

/-- Claim C9: with the skip-delete policy enabled, a run never invokes
the source's per-day deletion (no deletion event in the trace, whatever
the outcome) and the source's per-day records are unchanged. -/
theorem claim_c9_skip_delete (cfg : Config) (env : Env) (sys : Sys) (target : Nat)
    (h : cfg.skipDelete = true) :
    (∀ d, Event.deleteDay d ∉ (run cfg env sys target).2.2)
    ∧ ∀ d, (run cfg env sys target).2.1.src d = sys.src d := by
  unfold run
  rcases he : env.earliest with e | earliest
  · exact ⟨fun d => by simp, fun d => rfl⟩
  · have hr := runLoop_skipDelete cfg env h ((target - truncDay earliest) / 86400 + 1)
      (truncDay earliest) target sys 0
    exact ⟨hr.1, fun d => by rw [hr.2]⟩

theorem claim_c9_skip_delete_witness :
    cfgSkip.skipDelete = true
    ∧ (Event.deleteDay day01 ∉ (run cfgSkip envC1 sysC1 day03).2.2)
    ∧ (run cfgSkip envC1 sysC1 day03).2.1.src day01 = sysC1.src day01 :=
  ⟨rfl, (claim_c9_skip_delete cfgSkip envC1 sysC1 day03 rfl).1 day01,
    (claim_c9_skip_delete cfgSkip envC1 sysC1 day03 rfl).2 day01⟩

theorem archiveDocuments_conflict (cfg : Config) (env : Env) (sys : Sys) (date : Nat)
    (hig : cfg.ignoreFileExistsError = false)
    (hex : env.existsErr date = none)
    (hst : (sys.store (fileNameFor date)).isSome = true) :
    archiveDocuments cfg env sys date
      = (some (.mk "target file exists"), sys, [.existsCheck (fileNameFor date)]) := by
  unfold archiveDocuments
  rw [hex]
  simp [hst, hig]

theorem archiveDocumentsAndDelete_conflict (cfg : Config) (env : Env) (sys : Sys) (date : Nat)
    (hig : cfg.ignoreFileExistsError = false)
    (hex : env.existsErr date = none)
    (hst : (sys.store (fileNameFor date)).isSome = true) :
    archiveDocumentsAndDelete cfg env sys date
      = (some (.wrap "failed to archive documents" (.mk "target file exists")), sys,
         [.existsCheck (fileNameFor date)]) := by
  unfold archiveDocumentsAndDelete
  rw [archiveDocuments_conflict cfg env sys date hig hex hst]

theorem archiveDocumentsAndDelete_conflict_no_delete (cfg : Config) (env : Env) (sys : Sys)
    (s date : Nat)
    (hig : cfg.ignoreFileExistsError = false)
    (hex : env.existsErr date = none)
    (hst : (sys.store (fileNameFor date)).isSome = true) :
    Event.deleteDay date ∉ (archiveDocumentsAndDelete cfg env sys s).2.2 := by
  by_cases hsd : s = date
  · subst hsd
    rw [archiveDocumentsAndDelete_conflict cfg env sys s hig hex hst]
    simp
  · intro hmem
    exact hsd (archiveDocumentsAndDelete_delete_eq cfg env sys s date hmem).symm

theorem runLoop_conflict_no_delete (cfg : Config) (env : Env) (date : Nat)
    (hig : cfg.ignoreFileExistsError = false)
    (hex : env.existsErr date = none) :
    ∀ fuel start target sys total, (sys.store (fileNameFor date)).isSome = true →
      Event.deleteDay date ∉ (runLoop cfg env fuel start target sys total).2.2 := by
  intro fuel
  induction fuel with
  | zero =>
    intro start target sys total hst
    simp [runLoop]
  | succ n ih =>
    intro start target sys total hst
    by_cases hlt : start < target
    · rcases har : archiveDocumentsAndDelete cfg env sys start with ⟨err, sys', ev⟩
      have hev := archiveDocumentsAndDelete_conflict_no_delete cfg env sys start date hig hex hst
      rw [har] at hev
      simp only at hev
      obtain ⟨c, hc⟩ := Option.isSome_iff_exists.mp hst
      obtain ⟨c', hc'⟩ := archiveDocumentsAndDelete_store_mono cfg env sys start (fileNameFor date) c hc
      rw [har] at hc'
      simp only at hc'
      rcases err with _ | e
      · by_cases hcan : env.cancelled start
        · simp only [runLoop, if_pos hlt, har, hcan, if_pos]
          exact hev
        · have ihn := ih (start + 86400) target sys' (total + 1) (by simp [hc'])
          simp only [runLoop, if_pos hlt, har, hcan, Bool.false_eq_true, if_neg,
            not_false_iff]
          simp only [List.mem_append, not_or]
          exact ⟨hev, ihn⟩
      · simp only [runLoop, if_pos hlt, har]
        exact hev
    · simp [runLoop, hlt]

/-- Claim C4: under the default conflict policy, a day whose archive
path already exists makes the step fail with the conflict error before
any deletion for that day; at run level, a loop arriving at such a day
fails with the wrapped conflict error, and no deletion for that day is
ever invoked during the whole run. -/
theorem claim_c4_conflict (cfg : Config) (env : Env) (sys : Sys) (date : Nat) (c : Bytes)
    (hig : cfg.ignoreFileExistsError = false)
    (hex : env.existsErr date = none)
    (hst : sys.store (fileNameFor date) = some c) :
    archiveDocumentsAndDelete cfg env sys date
      = (some (.wrap "failed to archive documents" (.mk "target file exists")), sys,
         [.existsCheck (fileNameFor date)])
    ∧ (∀ target total fuel, date < target →
        runLoop cfg env (fuel + 1) date target sys total
          = (.failed (.wrap "archival failed" (.wrap "failed to archive documents"
              (.mk "target file exists"))), sys, [.existsCheck (fileNameFor date)]))
    ∧ (∀ fuel start target total,
        Event.deleteDay date ∉ (runLoop cfg env fuel start target sys total).2.2) := by
  have hst' : (sys.store (fileNameFor date)).isSome = true := by simp [hst]
  refine ⟨archiveDocumentsAndDelete_conflict cfg env sys date hig hex hst', ?_, ?_⟩
  · intro target total fuel hlt
    simp only [runLoop, if_pos hlt,
      archiveDocumentsAndDelete_conflict cfg env sys date hig hex hst']
  · intro fuel start target total
    exact runLoop_conflict_no_delete cfg env date hig hex fuel start target sys total hst'

theorem claim_c4_conflict_witness :
    (cfg0.ignoreFileExistsError = false
      ∧ envC1.existsErr day01 = none
      ∧ sysPre.store (fileNameFor day01) = some (encodeDocs [rec01]))
    ∧ Event.deleteDay day01 ∉ (runLoop cfg0 envC1 3 day01 day03 sysPre 0).2.2 :=
  ⟨⟨rfl, rfl, by decide⟩,
    (claim_c4_conflict cfg0 envC1 sysPre day01 (encodeDocs [rec01]) rfl rfl
      (by decide)).2.2 3 day01 day03 0⟩

theorem archiveDocuments_skip (cfg : Config) (env : Env) (sys : Sys) (date : Nat)
    (hig : cfg.ignoreFileExistsError = true)
    (hex : env.existsErr date = none)
    (hst : (sys.store (fileNameFor date)).isSome = true) :
    archiveDocuments cfg env sys date = (none, sys, [.existsCheck (fileNameFor date)]) := by
  unfold archiveDocuments
  rw [hex]
  simp [hst, hig]

theorem archiveDocuments_ok_faultFree (cfg : Config) (env : Env) (sys : Sys) (date : Nat)
    (hff : FaultFree env) (hig : cfg.ignoreFileExistsError = true) :
    (archiveDocuments cfg env sys date).1 = none := by
  obtain ⟨hex, hcr, hgz, hcp, hfi, hcg, hcf, hde⟩ := hff date
  unfold archiveDocuments writePhase
  rw [hex]
  by_cases hs : (sys.store (fileNameFor date)).isSome
  · simp [hs, hig]
  · simp only [Bool.not_eq_true] at hs
    rw [hcr, hgz]
    simp [hs, copyFault, firstErr, writtenDocs, joinClose, hcp, hfi, hcg, hcf]

theorem archiveDocumentsAndDelete_ok_faultFree (cfg : Config) (env : Env) (sys : Sys)
    (date : Nat) (hff : FaultFree env) (hig : cfg.ignoreFileExistsError = true) :
    (archiveDocumentsAndDelete cfg env sys date).1 = none := by
  have hok := archiveDocuments_ok_faultFree cfg env sys date hff hig
  obtain ⟨hex, hcr, hgz, hcp, hfi, hcg, hcf, hde⟩ := hff date
  unfold archiveDocumentsAndDelete
  rcases har : archiveDocuments cfg env sys date with ⟨err, sys', ev⟩
  rw [har] at hok
  simp only at hok
  subst hok
  by_cases hsk : cfg.skipDelete <;> simp [hsk, hde]

theorem runLoop_completed_faultFree (cfg : Config) (env : Env)
    (hff : FaultFree env) (hnc : NeverCancelled env)
    (hig : cfg.ignoreFileExistsError = true) :
    ∀ fuel date target sys total,
      (runLoop cfg env fuel date target sys total).1
        = .completed (total + (daysFromFuel fuel date target).length) := by
  intro fuel
  induction fuel with
  | zero =>
    intro date target sys total
    simp [runLoop, daysFromFuel]
  | succ n ih =>
    intro date target sys total
    by_cases hlt : date < target
    · rcases har : archiveDocumentsAndDelete cfg env sys date with ⟨err, sys', ev⟩
      have hok := archiveDocumentsAndDelete_ok_faultFree cfg env sys date hff hig
      rw [har] at hok
      simp only at hok
      subst hok
      simp only [runLoop, if_pos hlt, har, hnc date, Bool.false_eq_true, if_neg,
        not_false_iff]
      rw [ih (date + 86400) target sys' (total + 1)]
      simp only [daysFromFuel, if_pos hlt, List.length_cons]
      congr 1
      omega
    · simp [runLoop, daysFromFuel, hlt]

/-- Claim C5: under the ignore-existing policy, a day whose archive
path already exists is skipped without creating or rewriting any file,
treated as archived (no error), and its deletion still proceeds when
deletion is enabled; a fault-free, uncancelled run under this policy
completes successfully. -/
theorem claim_c5_ignore_existing (cfg : Config) (env : Env) (sys : Sys) (date : Nat)
    (c : Bytes)
    (hig : cfg.ignoreFileExistsError = true)
    (hsk : cfg.skipDelete = false)
    (hex : env.existsErr date = none)
    (hde : env.deleteErr date = none)
    (hst : sys.store (fileNameFor date) = some c) :
    (archiveDocumentsAndDelete cfg env sys date).1 = none
    ∧ (∀ q, (archiveDocumentsAndDelete cfg env sys date).2.1.store q = sys.store q)
    ∧ (∀ q, (archiveDocumentsAndDelete cfg env sys date).2.1.src q
        = if q = truncDay date then [] else sys.src q)
    ∧ (archiveDocumentsAndDelete cfg env sys date).2.2
        = [.existsCheck (fileNameFor date), .deleteDay date]
    ∧ (FaultFree env → NeverCancelled env → ∀ e0, env.earliest = .ok e0 → ∀ target,
        ∃ n, (run cfg env sys target).1 = .completed n) := by
  have hst' : (sys.store (fileNameFor date)).isSome = true := by simp [hst]
  have hskip := archiveDocuments_skip cfg env sys date hig hex hst'
  have hred : archiveDocumentsAndDelete cfg env sys date
      = (none, { sys with src := fun q => if q = truncDay date then [] else sys.src q },
         [.existsCheck (fileNameFor date), .deleteDay date]) := by
    unfold archiveDocumentsAndDelete
    rw [hskip]
    simp [hsk, hde]
  refine ⟨by rw [hred], fun q => by rw [hred], fun q => by rw [hred], by rw [hred], ?_⟩
  intro hff hnc e0 he0 target
  refine ⟨(daysFromFuel ((target - truncDay e0) / 86400 + 1) (truncDay e0) target).length, ?_⟩
  unfold run
  rw [he0]
  simpa using runLoop_completed_faultFree cfg env hff hnc hig
    ((target - truncDay e0) / 86400 + 1) (truncDay e0) target sys 0

theorem claim_c5_ignore_existing_witness :
    ((archiveDocumentsAndDelete cfgIgn envC1 sysPre day01).1 = none
      ∧ (archiveDocumentsAndDelete cfgIgn envC1 sysPre day01).2.1.store "2024/11/01.json.gz"
          = sysPre.store "2024/11/01.json.gz"
      ∧ (archiveDocumentsAndDelete cfgIgn envC1 sysPre day01).2.1.src day01 = []
      ∧ (archiveDocumentsAndDelete cfgIgn envC1 sysPre day01).2.2
          = [.existsCheck (fileNameFor day01), .deleteDay day01])
    ∧ ∃ n, (run cfgIgn envC1 sysPre day03).1 = .completed n := by
  have h := claim_c5_ignore_existing cfgIgn envC1 sysPre day01 (encodeDocs [rec01])
    rfl rfl rfl rfl (by decide)
  refine ⟨⟨h.1, h.2.1 "2024/11/01.json.gz", ?_, h.2.2.2.1⟩, ?_⟩
  · rw [h.2.2.1 day01]
    decide
  · exact h.2.2.2.2 (fun d => ⟨rfl, rfl, rfl, rfl, rfl, rfl, rfl, rfl⟩)
      (fun d => rfl) (day01 + 86399) rfl day03

/-- Claim C7: if cancellation is observed right after a day's archive
and deletion complete, the loop returns the cancellation outcome with
exactly that day's state changes and events: the completed day's file
and deletion are kept, and nothing is done for any later day. -/
theorem claim_c7_cancellation (cfg : Config) (env : Env) (sys : Sys) (date target : Nat)
    (hlt : date < target)
    (hcan : env.cancelled date = true)
    (hok : (archiveDocumentsAndDelete cfg env sys date).1 = none) :
    (∀ fuel total,
      (runLoop cfg env (fuel + 1) date target sys total).1 = .cancelled
      ∧ (runLoop cfg env (fuel + 1) date target sys total).2.1
          = (archiveDocumentsAndDelete cfg env sys date).2.1
      ∧ (runLoop cfg env (fuel + 1) date target sys total).2.2
          = (archiveDocumentsAndDelete cfg env sys date).2.2)
    ∧ (∀ e0, env.earliest = .ok e0 → truncDay e0 = date →
        (run cfg env sys target).1 = .cancelled
        ∧ (run cfg env sys target).2.1 = (archiveDocumentsAndDelete cfg env sys date).2.1
        ∧ (run cfg env sys target).2.2 = (archiveDocumentsAndDelete cfg env sys date).2.2) := by
  rcases har : archiveDocumentsAndDelete cfg env sys date with ⟨err, sys', ev⟩
  rw [har] at hok
  simp only at hok
  subst hok
  constructor
  · intro fuel total
    refine ⟨?_, ?_, ?_⟩ <;> simp [runLoop, hlt, har, hcan]
  · intro e0 he0 hstart
    unfold run
    rw [he0]
    simp only
    rw [hstart]
    refine ⟨?_, ?_, ?_⟩ <;> simp [runLoop, hlt, har, hcan]

theorem claim_c7_cancellation_witness :
    (run cfg0 envC7 sysC1 day03).1 = RunOutcome.cancelled
    ∧ (run cfg0 envC7 sysC1 day03).2.1.store "2024/11/01.json.gz" = some (encodeDocs [rec01])
    ∧ (run cfg0 envC7 sysC1 day03).2.1.store "2024/11/02.json.gz" = none
    ∧ (run cfg0 envC7 sysC1 day03).2.1.src day01 = []
    ∧ (run cfg0 envC7 sysC1 day03).2.1.src day02 = [rec02a, rec02b]
    ∧ Event.deleteDay day02 ∉ (run cfg0 envC7 sysC1 day03).2.2 := by
  have h := (claim_c7_cancellation cfg0 envC7 sysC1 day01 day03 (by decide) (by decide)
    (by decide)).2 (day01 + 86399) rfl (by decide)
  refine ⟨h.1, ?_, ?_, ?_, ?_, ?_⟩
  · rw [h.2.1]
    decide
  · rw [h.2.1]
    decide
  · rw [h.2.1]
    decide
  · rw [h.2.1]
    decide
  · rw [h.2.2]
    decide

theorem errorLeaves_some (e : GoErr) : errorLeaves (some e) = e.leaves := rfl

theorem errorLeaves_joinClose (m : String) (o c : Option GoErr) :
    errorLeaves (joinClose m o c) = errorLeaves o ++ errorLeaves (c.map (GoErr.wrap m)) := by
  rcases c with _ | e
  · simp [joinClose, errorLeaves]
  · rcases o with _ | a <;> simp [joinClose, joinErr, errorLeaves, GoErr.leaves]

theorem archiveDocuments_write (cfg : Config) (env : Env) (sys : Sys) (date : Nat)
    (hex : env.existsErr date = none)
    (hst : sys.store (fileNameFor date) = none)
    (hcr : env.createErr date = none)
    (hgz : env.gzipErr date = none) :
    archiveDocuments cfg env sys date
      = (joinClose "failed to close file"
           (joinClose "failed to close gzip writer"
             (firstErr (copyFault env date (sys.src (truncDay date))) (env.findErr date))
             (env.closeGzipErr date))
           (env.closeFileErr date),
         { sys with store := fun q => if q = fileNameFor date
             then some (encodeDocs (writtenDocs env date (sys.src (truncDay date))))
             else sys.store q },
         [.existsCheck (fileNameFor date), .createFile (fileNameFor date)]
           ++ (List.range (writtenDocs env date (sys.src (truncDay date))).length).map
                (Event.writeRecord (fileNameFor date))
           ++ [.closeGzip (fileNameFor date), .closeFile (fileNameFor date)]) := by
  unfold archiveDocuments writePhase
  rw [hex, hcr, hgz]
  simp [hst, List.append_assoc]

/-- Claim C6: once a day's write has proceeded past file creation, the
gzip stream is always closed before the underlying file (in that order,
at the end of the day's events), and every failure among the primary
write step (stream fault or extractor terminal error) and the two close
steps ends up inside the returned error, none discarded. -/
theorem claim_c6_close_order_error_join (cfg : Config) (env : Env) (sys : Sys) (date : Nat)
    (hex : env.existsErr date = none)
    (hst : sys.store (fileNameFor date) = none)
    (hcr : env.createErr date = none)
    (hgz : env.gzipErr date = none) :
    (∃ pre, (archiveDocuments cfg env sys date).2.2
        = pre ++ [.closeGzip (fileNameFor date), .closeFile (fileNameFor date)])
    ∧ (∀ k e, env.copyErr date = some (k, e) → k < (sys.src (truncDay date)).length →
        ∀ x ∈ e.leaves, x ∈ errorLeaves (archiveDocuments cfg env sys date).1)
    ∧ (∀ e, env.copyErr date = none → env.findErr date = some e →
        ∀ x ∈ e.leaves, x ∈ errorLeaves (archiveDocuments cfg env sys date).1)
    ∧ (∀ e, env.closeGzipErr date = some e →
        GoErr.wrap "failed to close gzip writer" e
          ∈ errorLeaves (archiveDocuments cfg env sys date).1)
    ∧ (∀ e, env.closeFileErr date = some e →
        GoErr.wrap "failed to close file" e
          ∈ errorLeaves (archiveDocuments cfg env sys date).1) := by
  have hw := archiveDocuments_write cfg env sys date hex hst hcr hgz
  rw [hw]
  refine ⟨⟨_, rfl⟩, ?_, ?_, ?_, ?_⟩
  · intro k e hcp hk x hx
    simp [errorLeaves_joinClose, copyFault, hcp, hk, firstErr, errorLeaves_some, hx]
  · intro e hcp hfi x hx
    simp [errorLeaves_joinClose, copyFault, hcp, firstErr, hfi, errorLeaves_some, hx]
  · intro e hcg
    simp [errorLeaves_joinClose, hcg, errorLeaves_some, GoErr.leaves]
  · intro e hcf
    simp [errorLeaves_joinClose, hcf, errorLeaves_some, GoErr.leaves]

theorem claim_c6_close_order_error_join_witness :
    (∃ pre, (archiveDocuments cfg0 envC6 sysC1 day01).2.2
        = pre ++ [.closeGzip (fileNameFor day01), .closeFile (fileNameFor day01)])
    ∧ GoErr.mk "cursor fault" ∈ errorLeaves (archiveDocuments cfg0 envC6 sysC1 day01).1
    ∧ GoErr.wrap "failed to close gzip writer" (.mk "gzip close fault")
        ∈ errorLeaves (archiveDocuments cfg0 envC6 sysC1 day01).1
    ∧ GoErr.wrap "failed to close file" (.mk "file close fault")
        ∈ errorLeaves (archiveDocuments cfg0 envC6 sysC1 day01).1 := by
  have h := claim_c6_close_order_error_join cfg0 envC6 sysC1 day01 rfl rfl rfl rfl
  exact ⟨h.1,
    h.2.2.1 (.mk "cursor fault") rfl rfl (GoErr.mk "cursor fault") (by decide),
    h.2.2.2.1 (.mk "gzip close fault") rfl,
    h.2.2.2.2 (.mk "file close fault") rfl⟩

theorem joinClose_isSome (m : String) (o c : Option GoErr) :
    (joinClose m o c).isSome = (o.isSome || c.isSome) := by
  rcases c with _ | e
  · simp [joinClose]
  · rcases o with _ | a <;> simp [joinClose, joinErr]

theorem firstErr_isSome (a b : Option GoErr) :
    (firstErr a b).isSome = (a.isSome || b.isSome) := by
  rcases a with _ | e <;> simp [firstErr]

theorem archiveDocuments_gzipFail (cfg : Config) (env : Env) (sys : Sys) (date : Nat)
    (e : GoErr)
    (hex : env.existsErr date = none)
    (hst : sys.store (fileNameFor date) = none)
    (hcr : env.createErr date = none)
    (hgz : env.gzipErr date = some e) :
    archiveDocuments cfg env sys date
      = (joinClose "failed to close file" (some e) (env.closeFileErr date),
         { sys with store := fun q => if q = fileNameFor date then some [] else sys.store q },
         [.existsCheck (fileNameFor date), .createFile (fileNameFor date),
          .closeFile (fileNameFor date)]) := by
  unfold archiveDocuments writePhase
  rw [hex, hcr, hgz]
  simp [hst]

/-- Claim C10: when `store.Create` succeeds but the archive step fails
later (gzip setup, stream fault in range, extractor terminal error, or
either close), the step returns an error yet the created file stays in
the store, so re-running that day under the default conflict policy
fails with the conflict error. -/
theorem claim_c10_partial_file_kept (cfg : Config) (env : Env) (sys : Sys) (date : Nat)
    (hex : env.existsErr date = none)
    (hst : sys.store (fileNameFor date) = none)
    (hcr : env.createErr date = none)
    (hfail : env.gzipErr date ≠ none
      ∨ (∃ k e, env.copyErr date = some (k, e) ∧ k < (sys.src (truncDay date)).length)
      ∨ env.findErr date ≠ none
      ∨ env.closeGzipErr date ≠ none
      ∨ env.closeFileErr date ≠ none) :
    (archiveDocuments cfg env sys date).1.isSome = true
    ∧ (∃ c, (archiveDocuments cfg env sys date).2.1.store (fileNameFor date) = some c)
    ∧ (∀ cfg2 env2, cfg2.ignoreFileExistsError = false → env2.existsErr date = none →
        archiveDocuments cfg2 env2 (archiveDocuments cfg env sys date).2.1 date
          = (some (.mk "target file exists"), (archiveDocuments cfg env sys date).2.1,
             [.existsCheck (fileNameFor date)])) := by
  have hmain : (archiveDocuments cfg env sys date).1.isSome = true
      ∧ ∃ c, (archiveDocuments cfg env sys date).2.1.store (fileNameFor date) = some c := by
    rcases hgz : env.gzipErr date with _ | e
    · rw [archiveDocuments_write cfg env sys date hex hst hcr hgz]
      constructor
      · simp only [joinClose_isSome, firstErr_isSome]
        rcases hfail with h | ⟨k, e, hcp, hk⟩ | h | h | h
        · exact absurd hgz h
        · simp [copyFault, hcp, hk]
        · rw [Option.ne_none_iff_isSome] at h
          simp [h]
        · rw [Option.ne_none_iff_isSome] at h
          simp [h]
        · rw [Option.ne_none_iff_isSome] at h
          simp [h]
      · exact ⟨encodeDocs (writtenDocs env date (sys.src (truncDay date))), by simp⟩
    · rw [archiveDocuments_gzipFail cfg env sys date e hex hst hcr hgz]
      exact ⟨by simp [joinClose_isSome], ⟨[], by simp⟩⟩
  refine ⟨hmain.1, hmain.2, ?_⟩
  intro cfg2 env2 hig2 hex2
  obtain ⟨c, hc⟩ := hmain.2
  exact archiveDocuments_conflict cfg2 env2 _ date hig2 hex2 (by simp [hc])

theorem claim_c10_partial_file_kept_witness :
    (archiveDocuments cfg0 envC10 sysC1 day02).1.isSome = true
    ∧ (∃ c, (archiveDocuments cfg0 envC10 sysC1 day02).2.1.store (fileNameFor day02) = some c)
    ∧ archiveDocuments cfg0 envC10 (archiveDocuments cfg0 envC10 sysC1 day02).2.1 day02
        = (some (.mk "target file exists"), (archiveDocuments cfg0 envC10 sysC1 day02).2.1,
           [.existsCheck (fileNameFor day02)]) := by
  have h := claim_c10_partial_file_kept cfg0 envC10 sysC1 day02 rfl (by decide) rfl
    (Or.inr (Or.inl ⟨1, .mk "broken pipe", rfl, by decide⟩))
  exact ⟨h.1, h.2.1, h.2.2 cfg0 envC10 rfl rfl⟩

theorem splitNL_append (r rest : Bytes) (h : 10 ∉ r) :
    splitNL (r ++ 10 :: rest) = r :: splitNL rest := by
  induction r with
  | nil => simp [splitNL]
  | cons b r' ih =>
    have hb : ¬b = 10 := fun hb => h (hb ▸ List.mem_cons_self b r')
    have h' : 10 ∉ r' := fun hm => h (List.mem_cons_of_mem b hm)
    simp only [List.cons_append, splitNL, if_neg hb, List.append_eq]
    rw [ih h']

theorem splitNL_encode (docs : List Bytes) (h : ∀ r ∈ docs, 10 ∉ r) :
    splitNL (encodeDocs docs) = docs ++ [[]] := by
  induction docs with
  | nil => simp [encodeDocs, splitNL]
  | cons d ds ih =>
    have hd : 10 ∉ d := h d (List.mem_cons_self d ds)
    have h' : ∀ r ∈ ds, 10 ∉ r := fun r hr => h r (List.mem_cons_of_mem d hr)
    have : encodeDocs (d :: ds) = d ++ 10 :: encodeDocs ds := by
      simp [encodeDocs]
    rw [this, splitNL_append d _ hd, ih h']
    rfl

theorem gunzipLines_encode (docs : List Bytes) (h : ∀ r ∈ docs, 10 ∉ r) :
    gunzipLines (encodeDocs docs) = docs := by
  unfold gunzipLines
  rw [splitNL_encode docs h]
  simp

/-- Claim C3 (amended: for records containing no newline byte): a
fault-free archive write for a day succeeds, stores the
newline-delimited encoding of the day's extracted records, and
decoding that payload returns exactly those records, byte for byte and
in order. -/
theorem claim_c3_roundtrip (cfg : Config) (env : Env) (sys : Sys) (date : Nat)
    (hex : env.existsErr date = none)
    (hst : sys.store (fileNameFor date) = none)
    (hcr : env.createErr date = none)
    (hgz : env.gzipErr date = none)
    (hcp : env.copyErr date = none)
    (hfi : env.findErr date = none)
    (hcg : env.closeGzipErr date = none)
    (hcf : env.closeFileErr date = none)
    (hnl : ∀ r ∈ sys.src (truncDay date), 10 ∉ r) :
    (archiveDocuments cfg env sys date).1 = none
    ∧ (archiveDocuments cfg env sys date).2.1.store (fileNameFor date)
        = some (encodeDocs (sys.src (truncDay date)))
    ∧ gunzipLines (encodeDocs (sys.src (truncDay date))) = sys.src (truncDay date) := by
  have hw := archiveDocuments_write cfg env sys date hex hst hcr hgz
  rw [hw]
  refine ⟨?_, ?_, gunzipLines_encode _ hnl⟩
  · simp [joinClose, copyFault, hcp, firstErr, hfi, hcg, hcf]
  · simp [writtenDocs, hcp]

theorem claim_c3_roundtrip_witness :
    (archiveDocuments cfg0 envC1 sysC1 day02).1 = none
    ∧ (archiveDocuments cfg0 envC1 sysC1 day02).2.1.store (fileNameFor day02)
        = some (encodeDocs (sysC1.src (truncDay day02)))
    ∧ gunzipLines (encodeDocs (sysC1.src (truncDay day02))) = sysC1.src (truncDay day02) :=
  claim_c3_roundtrip cfg0 envC1 sysC1 day02 rfl (by decide) rfl rfl rfl rfl rfl rfl
    (by decide)

theorem claim_c3_counterexample :
    (archiveDocuments cfg0 envNL sysNL 0).1 = none
    ∧ (archiveDocuments cfg0 envNL sysNL 0).2.1.store (fileNameFor 0) = some [10, 10]
    ∧ sysNL.src (truncDay 0) = [[10]]
    ∧ gunzipLines [10, 10] ≠ [[10]] := by decide

theorem daysFromFuel_mem (d : Nat) :
    ∀ fuel s t, 86400 * fuel ≥ t - s →
      (d ∈ daysFromFuel fuel s t ↔ ∃ k, d = s + 86400 * k ∧ d < t) := by
  intro fuel
  induction fuel with
  | zero =>
    intro s t hf
    simp only [daysFromFuel, List.not_mem_nil, false_iff, not_exists]
    rintro k ⟨hk, hlt⟩
    omega
  | succ n ih =>
    intro s t hf
    by_cases hlt : s < t
    · simp only [daysFromFuel, if_pos hlt, List.mem_cons]
      rw [ih (s + 86400) t (by omega)]
      constructor
      · rintro (rfl | ⟨k, hk, h2⟩)
        · exact ⟨0, by omega, hlt⟩
        · exact ⟨k + 1, by omega, h2⟩
      · rintro ⟨k, hk, h2⟩
        rcases k with _ | k'
        · left
          omega
        · right
          exact ⟨k', by omega, h2⟩
    · simp only [daysFromFuel, if_neg hlt, List.not_mem_nil, false_iff, not_exists]
      rintro k ⟨hk, h2⟩
      omega

theorem daysFromFuel_head (fuel s t : Nat) :
    (daysFromFuel (fuel + 1) s t).head? = if s < t then some s else none := by
  by_cases hlt : s < t <;> simp [daysFromFuel, hlt]

theorem daysFromFuel_chain :
    ∀ fuel s t, List.Chain' (fun a b => b = a + 86400) (daysFromFuel fuel s t) := by
  intro fuel
  induction fuel with
  | zero =>
    intro s t
    simp [daysFromFuel]
  | succ n ih =>
    intro s t
    by_cases hlt : s < t
    · simp only [daysFromFuel, if_pos hlt]
      rw [List.chain'_cons']
      refine ⟨?_, ih (s + 86400) t⟩
      intro b hb
      rcases n with _ | n'
      · simp [daysFromFuel] at hb
      · rw [daysFromFuel_head] at hb
        by_cases h2 : s + 86400 < t
        · rw [if_pos h2] at hb
          simp at hb
          omega
        · rw [if_neg h2] at hb
          simp at hb
    · simp [daysFromFuel, hlt]

theorem daysFromFuel_eq_nil (fuel s t : Nat) :
    (daysFromFuel (fuel + 1) s t = []) ↔ t ≤ s := by
  by_cases hlt : s < t <;> simp [daysFromFuel, hlt]
  all_goals omega

theorem filter_existsCheck_writeRecords (p : String) (l : List Nat) :
    (l.map (Event.writeRecord p)).filter Event.isExistsCheck = [] := by
  induction l with
  | nil => rfl
  | cons x xs ih => simp [Event.isExistsCheck, ih]

theorem archiveDocuments_existsCheck_filter (cfg : Config) (env : Env) (sys : Sys)
    (date : Nat) :
    (archiveDocuments cfg env sys date).2.2.filter Event.isExistsCheck
      = [.existsCheck (fileNameFor date)] := by
  unfold archiveDocuments writePhase
  dsimp only []
  repeat' split
  all_goals simp [Event.isExistsCheck, filter_existsCheck_writeRecords]

theorem archiveDocumentsAndDelete_existsCheck_filter (cfg : Config) (env : Env) (sys : Sys)
    (date : Nat) :
    (archiveDocumentsAndDelete cfg env sys date).2.2.filter Event.isExistsCheck
      = [.existsCheck (fileNameFor date)] := by
  have hflt := archiveDocuments_existsCheck_filter cfg env sys date
  unfold archiveDocumentsAndDelete
  rcases har : archiveDocuments cfg env sys date with ⟨err, sys', ev⟩
  rw [har] at hflt
  simp only at hflt
  rcases err with _ | e
  · by_cases hsk : cfg.skipDelete
    · simpa [hsk] using hflt
    · rcases hde : env.deleteErr date with _ | e2 <;>
        simp [hsk, hde, hflt, Event.isExistsCheck]
  · simpa using hflt

theorem runLoop_existsCheck_events (cfg : Config) (env : Env)
    (hff : FaultFree env) (hnc : NeverCancelled env)
    (hig : cfg.ignoreFileExistsError = true) :
    ∀ fuel s t sys total,
      (runLoop cfg env fuel s t sys total).2.2.filter Event.isExistsCheck
        = (daysFromFuel fuel s t).map (fun d => Event.existsCheck (fileNameFor d)) := by
  intro fuel
  induction fuel with
  | zero =>
    intro s t sys total
    simp [runLoop, daysFromFuel]
  | succ n ih =>
    intro s t sys total
    by_cases hlt : s < t
    · rcases har : archiveDocumentsAndDelete cfg env sys s with ⟨err, sys', ev⟩
      have hok := archiveDocumentsAndDelete_ok_faultFree cfg env sys s hff hig
      have hflt := archiveDocumentsAndDelete_existsCheck_filter cfg env sys s
      rw [har] at hok hflt
      simp only at hok hflt
      subst hok
      simp only [runLoop, if_pos hlt, har, hnc s, Bool.false_eq_true, if_neg,
        not_false_iff]
      rw [List.filter_append, hflt, ih (s + 86400) t sys' (total + 1)]
      simp [daysFromFuel, hlt]
    · simp [runLoop, daysFromFuel, hlt]

/-- Claim C2 (amended: the sequence is empty exactly when the
UTC-midnight truncation of earliest is at or after the cutoff): the day
sequence starts at the truncation of earliest, steps by exactly 86400
seconds, contains exactly the days of that progression strictly before
the cutoff, and in a fault-free, uncancelled run the existence checks
performed are exactly one per day of this sequence, in order. -/
theorem claim_c2_day_window (earliest target : Nat) :
    (∀ d, d ∈ daysToProcess earliest target ↔
      ∃ k, d = truncDay earliest + 86400 * k ∧ d < target)
    ∧ (daysToProcess earliest target).head?
        = (if truncDay earliest < target then some (truncDay earliest) else none)
    ∧ List.Chain' (fun a b => b = a + 86400) (daysToProcess earliest target)
    ∧ (daysToProcess earliest target = [] ↔ target ≤ truncDay earliest)
    ∧ (∀ cfg env sys, FaultFree env → NeverCancelled env →
        cfg.ignoreFileExistsError = true → env.earliest = .ok earliest →
        (run cfg env sys target).2.2.filter Event.isExistsCheck
          = (daysToProcess earliest target).map
              (fun d => Event.existsCheck (fileNameFor d))) := by
  refine ⟨?_, ?_, ?_, ?_, ?_⟩
  · intro d
    exact daysFromFuel_mem d ((target - truncDay earliest) / 86400 + 1)
      (truncDay earliest) target (by omega)
  · exact daysFromFuel_head _ _ _
  · exact daysFromFuel_chain _ _ _
  · exact daysFromFuel_eq_nil _ _ _
  · intro cfg env sys hff hnc hig he0
    unfold run
    rw [he0]
    exact runLoop_existsCheck_events cfg env hff hnc hig _ _ _ sys 0

theorem claim_c2_day_window_witness :
    (86400 ∈ daysToProcess 100000 260000)
    ∧ (daysToProcess 100000 260000 = [] ↔ 260000 ≤ truncDay 100000) :=
  ⟨((claim_c2_day_window 100000 260000).1 86400).mpr ⟨0, by decide, by decide⟩,
    (claim_c2_day_window 100000 260000).2.2.2.1⟩

theorem claim_c2_counterexample :
    86401 ≤ 86402
    ∧ daysToProcess 86402 86401 = [86400]
    ∧ (run cfg0 envC2 sysEmpty 86401).1 = .completed 1
    ∧ (run cfg0 envC2 sysEmpty 86401).2.2 ≠ [] := by decide
